import Mathlib

/-!
Verification of the initialization/bootstrap layer of beanie
(`beanie/odm/utils/general.py`): the reference resolver `get_model` and the
initialization orchestrator `init_beanie`.

The Python source is shallowly embedded: the dynamic import system is an
explicit environment (`ImportEnv`), model classes are records carrying their
kind and the outcome of their own asynchronous setup routine, and the
orchestrator is a pure function returning a record of everything observable:
the union initializations executed synchronously during the loop, the
collected tasks, the tasks that actually ran, the selected database, and the
overall result.
-/

namespace Beanie

/-- Modelled from the spec: the `ModelType` enumeration
(`beanie.odm.interfaces.detector`, outside this fragment) is a closed
enumeration with exactly the members `UnionDoc`, `Document`, `View`. -/
inductive ModelType
  | UnionDoc
  | Document
  | View
deriving DecidableEq

instance instDecEqExcept {ε α : Type} [DecidableEq ε] [DecidableEq α] :
    DecidableEq (Except ε α) := fun x y =>
  match x, y with
  | Except.ok a, Except.ok b =>
    if h : a = b then Decidable.isTrue (by rw [h])
    else Decidable.isFalse (fun hc => by cases hc; exact h rfl)
  | Except.ok _, Except.error _ => Decidable.isFalse (fun hc => by cases hc)
  | Except.error _, Except.ok _ => Decidable.isFalse (fun hc => by cases hc)
  | Except.error a, Except.error b =>
    if h : a = b then Decidable.isTrue (by rw [h])
    else Decidable.isFalse (fun hc => by cases hc; exact h rfl)

/-- Modelled from the spec: a model class exposes `get_model_type()` (here the
pure field `kind`), a display `name`, and its own asynchronous setup routine
(`init_model` / `init_view`), whose eventual result we record as `outcome`.
The union-document routine `init` is synchronous and is recorded as an
in-line event by the orchestrator. -/
structure Model where
  name : String
  kind : ModelType
  outcome : Except String Unit
deriving DecidableEq

/-- Python exceptions that `get_model` can raise: `ValueError` (reference
format), `AttributeError` (module lacks the class), and a module import
failure that propagates unchanged. -/
inductive ResolveError
  | valueError (msg : String)
  | attributeError (msg : String)
  | importError (module_name : String)
deriving DecidableEq

/-- The dynamic import system: `importlib.import_module` resolves a module
name to a namespace, and `getattr` looks a class up in that namespace. -/
structure ImportEnv where
  modules : String → Option (String → Option Model)

/-- Python `s.rsplit(sep, 1)` restricted to the success/failure shape used by
`get_model`: split at the LAST occurrence of `sep`; `none` when `sep` does
not occur (in which case Python's 1-element unpacking raises `ValueError`). -/
def rsplitLast (sep : Char) : List Char → Option (List Char × List Char)
  | [] => none
  | c :: cs =>
    match rsplitLast sep cs with
    | some (l, r) => some (c :: l, r)
    | none => if c = sep then some ([], cs) else none

/-- Embedding of `get_model` (`general.py` lines 15-35):
`module_name, class_name = dot_path.rsplit(".", 1)` followed by
`getattr(importlib.import_module(module_name), class_name)`.
A missing dot makes the unpacking raise `ValueError`, caught and re-raised
with the format message; `importlib.import_module("")` also raises
`ValueError` ("Empty module name"), caught by the same handler; a missing
attribute raises `AttributeError`, caught and re-raised with the
module/class message; any other import failure propagates unchanged. -/
def get_model (env : ImportEnv) (dot_path : String) : Except ResolveError Model :=
  match rsplitLast '.' dot_path.data with
  | none =>
    Except.error (ResolveError.valueError
      ("'" ++ dot_path ++ "' doesn't have '.' path, eg. path.to.your.model.class"))
  | some (m, c) =>
    let module_name := String.mk m
    let class_name := String.mk c
    if module_name = "" then
      Except.error (ResolveError.valueError
        ("'" ++ dot_path ++ "' doesn't have '.' path, eg. path.to.your.model.class"))
    else
      match env.modules module_name with
      | none => Except.error (ResolveError.importError module_name)
      | some ns =>
        match ns class_name with
        | none =>
          Except.error (ResolveError.attributeError
            ("module '" ++ module_name ++ "' has no class called '" ++ class_name ++ "'"))
        | some t => Except.ok t

/-- A Motor client: either one supplied by the caller or one constructed by
`AsyncIOMotorClient(connection_string)`. -/
inductive Client
  | supplied (id : Nat)
  | constructed (connection_string : String)
deriving DecidableEq

/-- A Motor database handle: either supplied by the caller, or obtained by
subscripting a client with a database name (`client[name]`). -/
inductive Database
  | handle (name : String)
  | derived (client : Client) (name : String)
deriving DecidableEq

/-- Chars after the first `://` scheme separator, if any. -/
def afterSchemeSep : List Char → Option (List Char)
  | ':' :: '/' :: '/' :: rest => some rest
  | _ :: rest => afterSchemeSep rest
  | [] => none

/-- Drop authority chars up to the first `/` (the path start). -/
def fromSlash : List Char → List Char
  | [] => []
  | c :: rest => if c = '/' then c :: rest else fromSlash rest

/-- Truncate at the query or fragment delimiter. -/
def takeUntilQueryFrag : List Char → List Char
  | [] => []
  | c :: rest => if c = '?' ∨ c = '#' then [] else c :: takeUntilQueryFrag rest

/-- Embedding of `yarl.URL(cs).path`: for an absolute URL the path component
(sans query/fragment), normalized to `"/"` when empty; for a scheme-less
string the whole string up to the query. -/
def pathOfUrl (cs : String) : String :=
  match afterSchemeSep cs.data with
  | some rest =>
    let p := takeUntilQueryFrag (fromSlash rest)
    if p = [] then "/" else String.mk p
  | none => String.mk (takeUntilQueryFrag cs.data)

/-- Python slice `s[1:]`. -/
def sliceFrom1 (s : String) : String :=
  String.mk (s.data.drop 1)

/-- An entry of `document_models`: a concrete model class or a dotted string
reference. -/
inductive ModelRef
  | model (m : Model)
  | ref (path : String)
deriving DecidableEq

/-- One observable invocation of a per-model initialization routine, with the
arguments the orchestrator passes. -/
inductive Invocation
  | unionInit (model : String) (db : Database)
  | initModel (model : String) (db : Database) (allow_index_dropping : Bool)
  | initView (model : String) (db : Database) (recreate_view : Bool)
deriving DecidableEq

/-- True exactly for a union-document in-line initialization. -/
def Invocation.isUnionInit : Invocation → Bool
  | Invocation.unionInit _ _ => true
  | _ => false

/-- True exactly for a collected `Document`/`View` task invocation. -/
def Invocation.isTaskInit : Invocation → Bool
  | Invocation.unionInit _ _ => false
  | _ => true

/-- A collected (not yet awaited) initialization task: the coroutine
`model.init_model(...)` / `model.init_view(...)` together with the result its
setup routine will produce when run. -/
structure Task where
  inv : Invocation
  outcome : Except String Unit
deriving DecidableEq

/-- State threaded through `init_beanie`'s for-loop: the union
initializations already executed in-line, and `collection_inits`, the list
of collected tasks. -/
structure LoopState where
  syncEvents : List Invocation
  collection_inits : List Task
deriving DecidableEq

/-- Errors `init_beanie` can surface: its own `ValueError`s from argument
validation, a resolution error propagating out of `get_model`, and a task
failure propagating out of `asyncio.gather`. -/
inductive InitError
  | valueError (msg : String)
  | resolveError (e : ResolveError)
  | taskError (msg : String)
deriving DecidableEq

/-- Everything observable about one `init_beanie` call: the union
initializations executed synchronously during the loop (in order), the tasks
collected (in order), the task invocations that actually ran, the database
the orchestrator selected, and the overall result. -/
structure InitResult where
  loopEvents : List Invocation
  tasksCreated : List Task
  tasksExecuted : List Invocation
  databaseSelected : Option Database
  result : Except InitError Unit
deriving DecidableEq

/-- One iteration of the for-loop body after resolution (`general.py` lines
79-91): three independent `if model.get_model_type() == ...` tests; a
`UnionDoc` is initialized in-line, a `Document`/`View` has its coroutine
appended to `collection_inits`. `get_model_type()` is the pure field `kind`,
so at most one branch fires. -/
def processModel (db : Database) (allow_index_dropping recreate_views : Bool)
    (model : Model) (st : LoopState) : LoopState :=
  let st1 :=
    if model.kind = ModelType.UnionDoc then
      { st with syncEvents := st.syncEvents ++ [Invocation.unionInit model.name db] }
    else st
  let st2 :=
    if model.kind = ModelType.Document then
      { st1 with collection_inits := st1.collection_inits ++
          [⟨Invocation.initModel model.name db allow_index_dropping, model.outcome⟩] }
    else st1
  if model.kind = ModelType.View then
    { st2 with collection_inits := st2.collection_inits ++
        [⟨Invocation.initView model.name db recreate_views, model.outcome⟩] }
  else st2

/-- `if isinstance(model, str): model = get_model(model)` — a string entry is
resolved, a type entry passes through unchanged. -/
def resolveRef (env : ImportEnv) : ModelRef → Except ResolveError Model
  | ModelRef.model m => Except.ok m
  | ModelRef.ref s => get_model env s

/-- The for-loop of `init_beanie` (`general.py` lines 75-91). Resolution
failure aborts the loop immediately, returning the state reached so far
together with the raised error. -/
def runLoop (env : ImportEnv) (db : Database) (allow_index_dropping recreate_views : Bool) :
    List ModelRef → LoopState → LoopState × Option ResolveError
  | [], st => (st, none)
  | r :: rs, st =>
    match resolveRef env r with
    | Except.error e => (st, some e)
    | Except.ok m =>
      runLoop env db allow_index_dropping recreate_views rs
        (processModel db allow_index_dropping recreate_views m st)

/-- Deterministic model of `await asyncio.gather(*collection_inits)` with
`return_exceptions=False`: every task runs to completion (gather does not
cancel siblings on failure); the first failure observed — here, completion
order is list order since tasks are atomic in the model — is propagated to
the awaiter. -/
def gatherResult : List Task → Except String Unit
  | [] => Except.ok ()
  | t :: ts =>
    match t.outcome with
    | Except.error e => Except.error e
    | Except.ok _ => gatherResult ts

/-- The body of `init_beanie` after validation and database derivation: run
the loop, then gather the collected tasks. If the loop raised, no collected
task is ever awaited; otherwise all tasks run and gather's result decides
the overall outcome. -/
def runInit (env : ImportEnv) (db : Database)
    (refs : List ModelRef) (allow_index_dropping recreate_views : Bool) : InitResult :=
  match runLoop env db allow_index_dropping recreate_views refs ⟨[], []⟩ with
  | (st, some e) =>
    ⟨st.syncEvents, st.collection_inits, [], some db,
      Except.error (InitError.resolveError e)⟩
  | (st, none) =>
    ⟨st.syncEvents, st.collection_inits, st.collection_inits.map Task.inv, some db,
      match gatherResult st.collection_inits with
      | Except.ok _ => Except.ok ()
      | Except.error e => Except.error (InitError.taskError e)⟩

/-- Embedding of `init_beanie` (`general.py` lines 38-93).
Validation mirrors the source: raise `ValueError` when `connection_string`
and `database` are both `None` or both set; then raise `ValueError` when
`document_models` is `None`. When only `connection_string` is set, the
client is `client or AsyncIOMotorClient(connection_string)` and the database
is `client[URL(connection_string).path[1:]]`. -/
def init_beanie (env : ImportEnv)
    (client : Option Client) (database : Option Database)
    (connection_string : Option String)
    (document_models : Option (List ModelRef))
    (allow_index_dropping : Bool) (recreate_views : Bool) : InitResult :=
  match connection_string, database with
  | none, none =>
    ⟨[], [], [], none,
      Except.error (InitError.valueError
        "connection_string parameter or database parameter must be set")⟩
  | some _, some _ =>
    ⟨[], [], [], none,
      Except.error (InitError.valueError
        "connection_string parameter or database parameter must be set")⟩
  | some cs, none =>
    match document_models with
    | none =>
      ⟨[], [], [], none,
        Except.error (InitError.valueError "document_models parameter must be set")⟩
    | some refs =>
      let c : Client :=
        match client with
        | some c => c
        | none => Client.constructed cs
      runInit env (Database.derived c (sliceFrom1 (pathOfUrl cs))) refs
        allow_index_dropping recreate_views
  | none, some d =>
    match document_models with
    | none =>
      ⟨[], [], [], none,
        Except.error (InitError.valueError "document_models parameter must be set")⟩
    | some refs =>
      runInit env d refs allow_index_dropping recreate_views

/-- The full execution trace of a call: in-loop synchronous events followed
by the task invocations run by gather. -/
def InitResult.trace (R : InitResult) : List Invocation :=
  R.loopEvents ++ R.tasksExecuted

/-- The invocation `init_beanie` performs for a given model: its kind selects
the routine and the kind-specific option forwarded to it. -/
def expectedInv (db : Database) (allow_index_dropping recreate_views : Bool)
    (m : Model) : Invocation :=
  match m.kind with
  | ModelType.UnionDoc => Invocation.unionInit m.name db
  | ModelType.Document => Invocation.initModel m.name db allow_index_dropping
  | ModelType.View => Invocation.initView m.name db recreate_views

/-- The collected task a given model contributes, if any: only `Document`
and `View` models contribute one. -/
def taskOf (db : Database) (allow_index_dropping recreate_views : Bool)
    (m : Model) : Option Task :=
  match m.kind with
  | ModelType.UnionDoc => none
  | ModelType.Document =>
    some ⟨Invocation.initModel m.name db allow_index_dropping, m.outcome⟩
  | ModelType.View =>
    some ⟨Invocation.initView m.name db recreate_views, m.outcome⟩

/-- The union-initialization events a concrete model list produces. -/
def unionPart (db : Database) (models : List Model) : List Invocation :=
  models.filterMap fun m =>
    if m.kind = ModelType.UnionDoc then some (Invocation.unionInit m.name db) else none

/-- Modelled from the spec: the database name the spec's words prescribe,
"the first path component of the connection string with the leading
separator stripped". -/
def specFirstPathComponent (cs : String) : String :=
  String.mk (((pathOfUrl cs).data.drop 1).takeWhile fun c => ¬ c = '/')

/-- Concrete import environment with no loadable modules. -/
def emptyEnv : ImportEnv := ⟨fun _ => none⟩

/-- Concrete union-document model used in witnesses. -/
def mU : Model := ⟨"U", ModelType.UnionDoc, Except.ok ()⟩

/-- Concrete document model whose setup succeeds. -/
def mD : Model := ⟨"D", ModelType.Document, Except.ok ()⟩

/-- Concrete document model whose setup routine fails. -/
def mDF : Model := ⟨"D", ModelType.Document, Except.error "D failed"⟩

/-- Concrete view model whose setup succeeds. -/
def mV : Model := ⟨"V", ModelType.View, Except.ok ()⟩

/-- Concrete caller-supplied database handle. -/
def dbMain : Database := Database.handle "main"

/-- Concrete namespace exposing exactly the class `C`. -/
def wNsMap : String → Option Model := fun c => if c = "C" then some mD else none

/-- Concrete import environment exposing module `a.b` with class `C`. -/
def wEnv : ImportEnv := ⟨fun m => if m = "a.b" then some wNsMap else none⟩

theorem rsplitLast_eq_none (sep : Char) (l : List Char) (h : sep ∉ l) :
    rsplitLast sep l = none := by
  induction l with
  | nil => rfl
  | cons c cs ih =>
    have hc : ¬ c = sep := fun he => h (by rw [he]; exact List.mem_cons_self _ _)
    have hcs : sep ∉ cs := fun hm => h (List.mem_cons_of_mem _ hm)
    simp [rsplitLast, ih hcs, hc]

theorem rsplitLast_append (sep : Char) (l₁ l₂ : List Char) (h : sep ∉ l₂) :
    rsplitLast sep (l₁ ++ sep :: l₂) = some (l₁, l₂) := by
  induction l₁ with
  | nil => simp [rsplitLast, rsplitLast_eq_none sep l₂ h]
  | cons a l₁ ih => simp [rsplitLast, ih]

theorem dotted_data (ns cls : String) :
    (ns ++ "." ++ cls).data = ns.data ++ '.' :: cls.data := by
  rw [String.data_append (ns ++ ".") cls, String.data_append ns "."]
  simp

/-- C7: a textual reference containing no separator makes `get_model` fail
with the `ValueError` (spec: `InvalidReferenceFormat`) whose message names
the offending text and illustrates the expected dotted shape. -/
theorem get_model_no_separator (env : ImportEnv) (s : String)
    (h : ('.' : Char) ∉ s.data) :
    get_model env s = Except.error (ResolveError.valueError
      ("'" ++ s ++ "' doesn't have '.' path, eg. path.to.your.model.class")) := by
  unfold get_model
  rw [rsplitLast_eq_none '.' s.data h]

theorem get_model_no_separator_witness :
    get_model emptyEnv "NoDotHere" = Except.error (ResolveError.valueError
      ("'" ++ "NoDotHere" ++ "' doesn't have '.' path, eg. path.to.your.model.class")) :=
  get_model_no_separator emptyEnv "NoDotHere" (by decide)

/-- C8: when the namespace of a dotted reference loads but does not expose
the final identifier, `get_model` fails with the `AttributeError` (spec:
`UnresolvedModel`) whose message names both the namespace and the missing
identifier. -/
theorem get_model_missing_attribute (env : ImportEnv) (ns cls : String)
    (nsMap : String → Option Model)
    (hcls : ('.' : Char) ∉ cls.data) (hns : ¬ ns = "")
    (hm : env.modules ns = some nsMap) (hattr : nsMap cls = none) :
    get_model env (ns ++ "." ++ cls) = Except.error (ResolveError.attributeError
      ("module '" ++ ns ++ "' has no class called '" ++ cls ++ "'")) := by
  unfold get_model
  rw [dotted_data ns cls, rsplitLast_append '.' ns.data cls.data hcls]
  simp only []
  rw [show String.mk ns.data = ns from rfl, show String.mk cls.data = cls from rfl,
    if_neg hns, hm]
  simp [hattr]

theorem get_model_missing_attribute_witness :
    get_model wEnv ("a.b" ++ "." ++ "Missing") = Except.error (ResolveError.attributeError
      ("module '" ++ "a.b" ++ "' has no class called '" ++ "Missing" ++ "'")) :=
  get_model_missing_attribute wEnv "a.b" "Missing" wNsMap
    (by decide) (by decide) (by simp [wEnv]) (by simp [wNsMap])

/-- C9: for a valid dotted reference, built from a loadable namespace `ns`
(which may itself contain dots — the split is at the LAST separator, which
is why `cls` is dot-free) and a final identifier `cls` that `ns` exposes,
`get_model` returns exactly the type object that direct attribute access to
`ns.cls` yields. -/
theorem get_model_valid (env : ImportEnv) (ns cls : String)
    (nsMap : String → Option Model) (t : Model)
    (hcls : ('.' : Char) ∉ cls.data) (hns : ¬ ns = "")
    (hm : env.modules ns = some nsMap) (hattr : nsMap cls = some t) :
    get_model env (ns ++ "." ++ cls) = Except.ok t := by
  unfold get_model
  rw [dotted_data ns cls, rsplitLast_append '.' ns.data cls.data hcls]
  simp only []
  rw [show String.mk ns.data = ns from rfl, show String.mk cls.data = cls from rfl,
    if_neg hns, hm]
  simp [hattr]

theorem get_model_valid_witness :
    get_model wEnv ("a.b" ++ "." ++ "C") = Except.ok mD ∧ wNsMap "C" = some mD :=
  ⟨get_model_valid wEnv "a.b" "C" wNsMap mD
    (by decide) (by decide) (by simp [wEnv]) (by simp [wNsMap]),
   by simp [wNsMap]⟩

theorem processModel_eq (db : Database) (a r : Bool) (m : Model) (st : LoopState) :
    processModel db a r m st =
      ⟨st.syncEvents ++
          (if m.kind = ModelType.UnionDoc then [Invocation.unionInit m.name db] else []),
        st.collection_inits ++ (taskOf db a r m).toList⟩ := by
  cases h : m.kind <;> simp [processModel, taskOf, h]

theorem unionPart_cons (db : Database) (m : Model) (ms : List Model) :
    unionPart db (m :: ms) =
      (if m.kind = ModelType.UnionDoc then [Invocation.unionInit m.name db] else []) ++
        unionPart db ms := by
  by_cases h : m.kind = ModelType.UnionDoc <;> simp [unionPart, h]

theorem taskOf_cons (db : Database) (a r : Bool) (m : Model) (ms : List Model) :
    (m :: ms).filterMap (taskOf db a r) =
      (taskOf db a r m).toList ++ ms.filterMap (taskOf db a r) := by
  cases h : taskOf db a r m <;> simp [h]

/-- On a list of concrete (already resolved) models the loop never fails and
appends exactly the union events and the Document/View tasks, in order. -/
theorem runLoop_concrete (env : ImportEnv) (db : Database) (a r : Bool)
    (models : List Model) (st : LoopState) :
    runLoop env db a r (models.map ModelRef.model) st =
      (⟨st.syncEvents ++ unionPart db models,
        st.collection_inits ++ models.filterMap (taskOf db a r)⟩, none) := by
  induction models generalizing st with
  | nil => simp [runLoop, unionPart]
  | cons m ms ih =>
    simp only [List.map_cons, runLoop, resolveRef]
    rw [processModel_eq, ih, unionPart_cons, taskOf_cons]
    simp [List.append_assoc]

theorem runInit_databaseSelected (env : ImportEnv) (db : Database)
    (refs : List ModelRef) (a r : Bool) :
    (runInit env db refs a r).databaseSelected = some db := by
  unfold runInit
  rcases h : runLoop env db a r refs ⟨[], []⟩ with ⟨st, oe⟩
  cases oe <;> simp

/-- The body after validation only ever produces a resolution error, a task
error, or success — never one of the validation `ValueError`s. -/
theorem runInit_result_cases (env : ImportEnv) (db : Database)
    (refs : List ModelRef) (a r : Bool) :
    (runInit env db refs a r).result = Except.ok () ∨
    (∃ e, (runInit env db refs a r).result = Except.error (InitError.resolveError e)) ∨
    (∃ msg, (runInit env db refs a r).result = Except.error (InitError.taskError msg)) := by
  unfold runInit
  rcases h : runLoop env db a r refs ⟨[], []⟩ with ⟨st, oe⟩
  cases oe with
  | none =>
    cases hg : gatherResult st.collection_inits with
    | ok u => left; simp [hg]
    | error e => right; right; exact ⟨e, by simp [hg]⟩
  | some e => right; left; exact ⟨e, by simp⟩

/-- C3: the target validation of `init_beanie` fails with the configuration
`ValueError` exactly when `connection_string` and `database` are both absent
or both supplied; with exactly one of them supplied, this validation passes
(the call never raises that error). -/
theorem init_beanie_target_validation (env : ImportEnv)
    (cl : Option Client) (database : Option Database) (conn : Option String)
    (dm : Option (List ModelRef)) (a r : Bool) :
    ((init_beanie env cl database conn dm a r).result =
        Except.error (InitError.valueError
          "connection_string parameter or database parameter must be set")) ↔
      ((conn = none ∧ database = none) ∨ (¬ conn = none ∧ ¬ database = none)) := by
  cases conn with
  | none =>
    cases database with
    | none => simp [init_beanie]
    | some d =>
      cases dm with
      | none => simp [init_beanie]
      | some refs =>
        simp only [init_beanie]
        rcases runInit_result_cases env d refs a r with h | ⟨e, h⟩ | ⟨msg, h⟩ <;> simp [h]
  | some cs =>
    cases database with
    | some d => simp [init_beanie]
    | none =>
      cases dm with
      | none => simp [init_beanie]
      | some refs =>
        simp only [init_beanie]
        rcases runInit_result_cases env
            (Database.derived (match cl with | some c => c | none => Client.constructed cs)
              (sliceFrom1 (pathOfUrl cs))) refs a r with h | ⟨e, h⟩ | ⟨msg, h⟩ <;> simp [h]

/-- C2 counterexample: an EMPTY model list is accepted — the call succeeds
with nothing initialized, instead of failing with the configuration error
the claim prescribes (the source only checks `document_models is None`). -/
theorem init_beanie_empty_models_accepted :
    (init_beanie emptyEnv none (some dbMain) none (some []) false false).result =
        Except.ok () ∧
      (init_beanie emptyEnv none (some dbMain) none (some []) false false).trace = [] := by
  decide

/-- C2 (amended): with a valid target, `init_beanie` fails with
`ValueError: document_models parameter must be set` when `document_models`
is absent (`None`), before resolving or initializing anything; an empty
list, however, passes validation and the call completes successfully with
no model resolved and no routine invoked. -/
theorem init_beanie_models_param_required (env : ImportEnv)
    (cl : Option Client) (database : Option Database) (conn : Option String) (a r : Bool)
    (h : (conn = none ∧ ¬ database = none) ∨ (¬ conn = none ∧ database = none)) :
    (init_beanie env cl database conn none a r).result =
        Except.error (InitError.valueError "document_models parameter must be set") ∧
      (init_beanie env cl database conn (some []) a r).trace = [] ∧
      (init_beanie env cl database conn (some []) a r).result = Except.ok () := by
  rcases h with ⟨hc, hd⟩ | ⟨hc, hd⟩
  · subst hc
    cases database with
    | none => exact absurd rfl hd
    | some d =>
      refine ⟨by simp [init_beanie], ?_, ?_⟩ <;>
        simp [init_beanie, runInit, runLoop, gatherResult, InitResult.trace]
  · subst hd
    cases conn with
    | none => exact absurd rfl hc
    | some cs =>
      refine ⟨by simp [init_beanie], ?_, ?_⟩ <;>
        simp [init_beanie, runInit, runLoop, gatherResult, InitResult.trace]

theorem init_beanie_models_param_required_witness :
    (init_beanie emptyEnv none (some dbMain) none none false false).result =
        Except.error (InitError.valueError "document_models parameter must be set") ∧
      (init_beanie emptyEnv none (some dbMain) none (some []) false false).trace = [] ∧
      (init_beanie emptyEnv none (some dbMain) none (some []) false false).result =
        Except.ok () :=
  init_beanie_models_param_required emptyEnv none (some dbMain) none false false
    (Or.inl ⟨rfl, by simp⟩)

/-- C4 counterexample: for the connection string `"mongodb://host/a/b"` the
code selects the database named by the WHOLE url path minus its first
character (`"a/b"`), not by the first path component (`"a"`) as the claim
states. -/
theorem init_beanie_dbname_counterexample :
    (init_beanie emptyEnv none none (some "mongodb://host/a/b") (some [])
          false false).databaseSelected =
        some (Database.derived (Client.constructed "mongodb://host/a/b") "a/b") ∧
      specFirstPathComponent "mongodb://host/a/b" = "a" ∧
      ¬ ("a/b" : String) = "a" := by
  decide

/-- C4 (amended): when only a connection string is supplied, the selected
database is named by the url path with its first character (the leading
separator) stripped — which equals the first path component whenever the
path has a single segment, e.g. `"mongodb://host/mydb"` gives `"mydb"` —
and a separately supplied client is reused; otherwise a new client is
constructed from the connection string. -/
theorem init_beanie_connection_string_database (env : ImportEnv)
    (cl : Option Client) (cs : String) (refs : List ModelRef) (a r : Bool) :
    (init_beanie env cl none (some cs) (some refs) a r).databaseSelected =
        some (Database.derived
          (match cl with | some c => c | none => Client.constructed cs)
          (sliceFrom1 (pathOfUrl cs))) ∧
      sliceFrom1 (pathOfUrl "mongodb://host/mydb") = "mydb" := by
  refine ⟨?_, by decide⟩
  simp only [init_beanie]
  exact runInit_databaseSelected env _ refs a r

theorem runInit_of_runLoop_none (env : ImportEnv) (db : Database)
    (refs : List ModelRef) (a r : Bool) (st : LoopState)
    (h : runLoop env db a r refs ⟨[], []⟩ = (st, none)) :
    runInit env db refs a r =
      ⟨st.syncEvents, st.collection_inits, st.collection_inits.map Task.inv, some db,
        match gatherResult st.collection_inits with
        | Except.ok _ => Except.ok ()
        | Except.error e => Except.error (InitError.taskError e)⟩ := by
  unfold runInit
  rw [h]

/-- A call with an explicit database handle and a list of concrete models,
fully characterized. -/
theorem init_beanie_concrete (env : ImportEnv) (cl : Option Client) (d : Database)
    (models : List Model) (a r : Bool) :
    init_beanie env cl (some d) none (some (models.map ModelRef.model)) a r =
      ⟨unionPart d models, models.filterMap (taskOf d a r),
        (models.filterMap (taskOf d a r)).map Task.inv, some d,
        match gatherResult (models.filterMap (taskOf d a r)) with
        | Except.ok _ => Except.ok ()
        | Except.error e => Except.error (InitError.taskError e)⟩ := by
  show runInit env d (models.map ModelRef.model) a r = _
  rw [runInit_of_runLoop_none env d _ a r _ (runLoop_concrete env d a r models ⟨[], []⟩)]
  simp

/-- The gather model propagates the error of the unique failing task. -/
theorem gatherResult_of_unique_error (ts : List Task) (i : Nat) (hi : i < ts.length)
    (e : String) (h2 : (ts.get ⟨i, hi⟩).outcome = Except.error e)
    (h3 : ∀ j (hj : j < ts.length), ¬ j = i → (ts.get ⟨j, hj⟩).outcome = Except.ok ()) :
    gatherResult ts = Except.error e := by
  induction ts generalizing i with
  | nil => exact absurd hi (by simp)
  | cons t ts ih =>
    cases i with
    | zero =>
      have h0 : t.outcome = Except.error e := h2
      simp [gatherResult, h0]
    | succ n =>
      have h0 : t.outcome = Except.ok () := h3 0 (by simp) (by simp)
      have hn : n < ts.length := Nat.lt_of_succ_lt_succ hi
      have h2' : (ts.get ⟨n, hn⟩).outcome = Except.error e := h2
      have h3' : ∀ j (hj : j < ts.length), ¬ j = n →
          (ts.get ⟨j, hj⟩).outcome = Except.ok () := fun j hj hne =>
        h3 (j + 1) (Nat.succ_lt_succ hj) (fun hc => hne (Nat.succ_injective hc))
      simp [gatherResult, h0, ih n hn h2' h3']

/-- C5: if, among the tasks a call collects, exactly one fails while all the
others succeed, the call fails overall with that task's error, and every
sibling task still runs to completion (all collected invocations execute —
gather does not cancel or abandon siblings). -/
theorem init_beanie_gather_failure (env : ImportEnv) (cl : Option Client)
    (d : Database) (models : List Model) (a r : Bool) (i : Nat) (e : String)
    (hi : i < (models.filterMap (taskOf d a r)).length)
    (h2 : ((models.filterMap (taskOf d a r)).get ⟨i, hi⟩).outcome = Except.error e)
    (h3 : ∀ j (hj : j < (models.filterMap (taskOf d a r)).length), ¬ j = i →
      ((models.filterMap (taskOf d a r)).get ⟨j, hj⟩).outcome = Except.ok ()) :
    (init_beanie env cl (some d) none (some (models.map ModelRef.model)) a r).tasksCreated =
        models.filterMap (taskOf d a r) ∧
      (init_beanie env cl (some d) none (some (models.map ModelRef.model)) a r).result =
        Except.error (InitError.taskError e) ∧
      (init_beanie env cl (some d) none (some (models.map ModelRef.model)) a r).tasksExecuted =
        (models.filterMap (taskOf d a r)).map Task.inv := by
  rw [init_beanie_concrete]
  refine ⟨rfl, ?_, rfl⟩
  show (match gatherResult (models.filterMap (taskOf d a r)) with
    | Except.ok _ => (Except.ok () : Except InitError Unit)
    | Except.error e => Except.error (InitError.taskError e)) =
      Except.error (InitError.taskError e)
  rw [gatherResult_of_unique_error (models.filterMap (taskOf d a r)) i hi e h2 h3]

theorem init_beanie_gather_failure_witness :
    (init_beanie emptyEnv none (some dbMain) none
          (some ([mDF, mV].map ModelRef.model)) false false).result =
        Except.error (InitError.taskError "D failed") ∧
      (init_beanie emptyEnv none (some dbMain) none
          (some ([mDF, mV].map ModelRef.model)) false false).tasksExecuted =
        ([mDF, mV].filterMap (taskOf dbMain false false)).map Task.inv := by
  have h := init_beanie_gather_failure emptyEnv none dbMain [mDF, mV] false false 0 "D failed"
    (by decide) (by decide)
    (by
      intro j hj hne
      have hj2 : j < 2 := hj
      interval_cases j
      · exact absurd rfl hne
      · rfl)
  exact ⟨h.2.1, h.2.2⟩

theorem runInit_resolveError_no_exec (env : ImportEnv) (db : Database)
    (refs : List ModelRef) (a r : Bool) (e : ResolveError)
    (h : (runInit env db refs a r).result = Except.error (InitError.resolveError e)) :
    (runInit env db refs a r).tasksExecuted = [] := by
  unfold runInit at h ⊢
  rcases hl : runLoop env db a r refs ⟨[], []⟩ with ⟨st, oe⟩
  cases oe with
  | some e' => rfl
  | none =>
    exfalso
    rw [hl] at h
    have h' : (match gatherResult st.collection_inits with
        | Except.ok _ => (Except.ok () : Except InitError Unit)
        | Except.error e => Except.error (InitError.taskError e)) =
        Except.error (InitError.resolveError e) := h
    cases hg : gatherResult st.collection_inits with
    | ok u => rw [hg] at h'; simp at h'
    | error msg => rw [hg] at h'; simp at h'

/-- C6 counterexample: with the bad textual reference sitting after a
`UnionDoc` and a `Document` model, the `InvalidReferenceFormat` failure is
raised at a point where the union initialization HAS been performed and a
`Document` initialization task HAS been created — contradicting the claim
that neither exists when the error is raised. -/
theorem init_beanie_bad_ref_after_models :
    (init_beanie emptyEnv none (some dbMain) none
          (some [ModelRef.model mU, ModelRef.model mD, ModelRef.ref "NoDotHere"])
          false false).result =
        Except.error (InitError.resolveError (ResolveError.valueError
          "'NoDotHere' doesn't have '.' path, eg. path.to.your.model.class")) ∧
      (init_beanie emptyEnv none (some dbMain) none
          (some [ModelRef.model mU, ModelRef.model mD, ModelRef.ref "NoDotHere"])
          false false).loopEvents = [Invocation.unionInit "U" dbMain] ∧
      (init_beanie emptyEnv none (some dbMain) none
          (some [ModelRef.model mU, ModelRef.model mD, ModelRef.ref "NoDotHere"])
          false false).tasksCreated =
        [⟨Invocation.initModel "D" dbMain false, Except.ok ()⟩] := by
  decide

/-- C6 (amended): a textual reference lacking the separator surfaces its
`InvalidReferenceFormat` failure before any collected initialization task
EXECUTES — the gather step is never reached and `tasksExecuted` is empty —
though union initializations and task creations for models placed before
the bad reference have already happened by then. -/
theorem init_beanie_resolve_error_no_task_runs (env : ImportEnv)
    (cl : Option Client) (database : Option Database) (conn : Option String)
    (dm : Option (List ModelRef)) (a r : Bool) (e : ResolveError)
    (h : (init_beanie env cl database conn dm a r).result =
      Except.error (InitError.resolveError e)) :
    (init_beanie env cl database conn dm a r).tasksExecuted = [] := by
  cases conn with
  | none =>
    cases database with
    | none => simp [init_beanie] at h
    | some d =>
      cases dm with
      | none => simp [init_beanie] at h
      | some refs => exact runInit_resolveError_no_exec env d refs a r e h
  | some cs =>
    cases database with
    | some d => simp [init_beanie] at h
    | none =>
      cases dm with
      | none => simp [init_beanie] at h
      | some refs => exact runInit_resolveError_no_exec env _ refs a r e h

theorem init_beanie_resolve_error_no_task_runs_witness :
    (init_beanie emptyEnv none (some dbMain) none
        (some [ModelRef.model mD, ModelRef.ref "NoDotHere"]) false false).tasksExecuted =
      [] :=
  init_beanie_resolve_error_no_task_runs emptyEnv none (some dbMain) none
    (some [ModelRef.model mD, ModelRef.ref "NoDotHere"]) false false
    (ResolveError.valueError
      "'NoDotHere' doesn't have '.' path, eg. path.to.your.model.class")
    (by decide)

/-- Interleaving the union events with the per-model task invocations
recovers exactly one expected invocation per model. -/
theorem trace_perm (db : Database) (a r : Bool) (models : List Model) :
    List.Perm (unionPart db models ++ (models.filterMap (taskOf db a r)).map Task.inv)
      (models.map (expectedInv db a r)) := by
  induction models with
  | nil => simp [unionPart]
  | cons m ms ih =>
    rw [unionPart_cons, taskOf_cons, List.map_cons, List.map_append]
    cases hk : m.kind with
    | UnionDoc =>
      simp only [taskOf, expectedInv, hk, if_pos, Option.toList_none, List.map_nil,
        List.nil_append, List.append_nil, List.singleton_append, List.append_assoc]
      exact List.Perm.cons _ ih
    | Document =>
      simp only [taskOf, expectedInv, hk, if_neg, Option.toList_some, List.map_cons,
        List.map_nil, List.nil_append, List.singleton_append, List.append_assoc,
        reduceCtorEq, reduceIte]
      exact List.Perm.trans List.perm_middle (List.Perm.cons _ ih)
    | View =>
      simp only [taskOf, expectedInv, hk, if_neg, Option.toList_some, List.map_cons,
        List.map_nil, List.nil_append, List.singleton_append, List.append_assoc,
        reduceCtorEq, reduceIte]
      exact List.Perm.trans List.perm_middle (List.Perm.cons _ ih)

/-- C10: on a successful-shape call with concrete models, the full trace is
a permutation of exactly one expected invocation per model — `init` for
`UnionDoc`, `init_model` (receiving `allow_index_dropping`) for `Document`,
`init_view` (receiving `recreate_views`) for `View` — and only `Document`
and `View` models contribute tasks to the gathered batch, while `UnionDoc`
initializations happen in the loop. Since `ModelType` is a closed
three-member enumeration and `kind` is a pure field, determinism and
exhaustiveness hold by construction. -/
theorem init_beanie_kind_dispatch (env : ImportEnv) (cl : Option Client)
    (d : Database) (models : List Model) (a r : Bool) :
    List.Perm
        (init_beanie env cl (some d) none (some (models.map ModelRef.model)) a r).trace
        (models.map (expectedInv d a r)) ∧
      (init_beanie env cl (some d) none (some (models.map ModelRef.model)) a r).tasksCreated =
        models.filterMap (taskOf d a r) ∧
      (init_beanie env cl (some d) none (some (models.map ModelRef.model)) a r).loopEvents =
        unionPart d models := by
  rw [init_beanie_concrete]
  exact ⟨trace_perm d a r models, rfl, rfl⟩

/-- The loop only ever appends to the state. -/
theorem runLoop_mono (env : ImportEnv) (db : Database) (a r : Bool) :
    ∀ (refs : List ModelRef) (st : LoopState),
      ∃ l₁ l₂, (runLoop env db a r refs st).1.syncEvents = st.syncEvents ++ l₁ ∧
        (runLoop env db a r refs st).1.collection_inits = st.collection_inits ++ l₂ := by
  intro refs
  induction refs with
  | nil => exact fun st => ⟨[], [], by simp [runLoop], by simp [runLoop]⟩
  | cons rf rs ih =>
    intro st
    cases hres : resolveRef env rf with
    | error e => exact ⟨[], [], by simp [runLoop, hres], by simp [runLoop, hres]⟩
    | ok m =>
      obtain ⟨l₁, l₂, h1, h2⟩ := ih (processModel db a r m st)
      refine ⟨(if m.kind = ModelType.UnionDoc then [Invocation.unionInit m.name db] else [])
          ++ l₁, (taskOf db a r m).toList ++ l₂, ?_, ?_⟩
      · simp only [runLoop, hres]
        rw [h1, processModel_eq]
        simp [List.append_assoc]
      · simp only [runLoop, hres]
        rw [h2, processModel_eq]
        simp [List.append_assoc]

/-- When the loop completes without a resolution error, every concrete
`UnionDoc` model in the list has had its union initialization executed. -/
theorem runLoop_mem_union (env : ImportEnv) (db : Database) (a r : Bool) :
    ∀ (refs : List ModelRef) (st st' : LoopState),
      runLoop env db a r refs st = (st', none) →
      ∀ m : Model, ModelRef.model m ∈ refs → m.kind = ModelType.UnionDoc →
      Invocation.unionInit m.name db ∈ st'.syncEvents := by
  intro refs
  induction refs with
  | nil => intro st st' h m hm; exact absurd hm (by simp)
  | cons rf rs ih =>
    intro st st' h m hm hk
    rcases List.mem_cons.mp hm with he | ht
    · subst he
      simp only [runLoop, resolveRef] at h
      obtain ⟨l₁, l₂, h1, _⟩ := runLoop_mono env db a r rs (processModel db a r m st)
      have hs : st'.syncEvents = (processModel db a r m st).syncEvents ++ l₁ := by
        rw [← h1, h]
      rw [processModel_eq] at hs
      rw [hs, if_pos hk]
      simp
    · cases hres : resolveRef env rf with
      | error e => simp only [runLoop, hres] at h; simp at h
      | ok m' =>
        simp only [runLoop, hres] at h
        exact ih (processModel db a r m' st) st' h m ht hk

/-- The loop preserves the shape invariant: synchronous events are union
initializations, collected tasks are `Document`/`View` invocations. -/
theorem runLoop_classify (env : ImportEnv) (db : Database) (a r : Bool) :
    ∀ (refs : List ModelRef) (st : LoopState),
      (∀ e ∈ st.syncEvents, e.isUnionInit = true) →
      (∀ t ∈ st.collection_inits, t.inv.isTaskInit = true) →
      (∀ e ∈ (runLoop env db a r refs st).1.syncEvents, e.isUnionInit = true) ∧
        (∀ t ∈ (runLoop env db a r refs st).1.collection_inits, t.inv.isTaskInit = true) := by
  intro refs
  induction refs with
  | nil => intro st h1 h2; exact ⟨h1, h2⟩
  | cons rf rs ih =>
    intro st h1 h2
    cases hres : resolveRef env rf with
    | error e => simp only [runLoop, hres]; exact ⟨h1, h2⟩
    | ok m =>
      simp only [runLoop, hres]
      apply ih
      · rw [processModel_eq]
        intro e he
        rcases List.mem_append.mp he with hmem | hmem
        · exact h1 e hmem
        · by_cases hk : m.kind = ModelType.UnionDoc
          · rw [if_pos hk] at hmem
            simp at hmem
            rw [hmem]
            rfl
          · rw [if_neg hk] at hmem
            exact absurd hmem (by simp)
      · rw [processModel_eq]
        intro t ht
        rcases List.mem_append.mp ht with hmem | hmem
        · exact h2 t hmem
        · cases hk : m.kind with
          | UnionDoc => simp [taskOf, hk] at hmem
          | Document => simp [taskOf, hk] at hmem; rw [hmem]; rfl
          | View => simp [taskOf, hk] at hmem; rw [hmem]; rfl

theorem union_not_task (e : Invocation) (hu : e.isUnionInit = true)
    (ht : e.isTaskInit = true) : False := by
  cases e <;> simp [Invocation.isUnionInit, Invocation.isTaskInit] at hu ht

/-- In a list made of union events followed by task events, every union
event positionally precedes every task event. -/
theorem barrier_of_append (l₁ l₂ : List Invocation)
    (h1 : ∀ e ∈ l₁, e.isUnionInit = true)
    (h2 : ∀ e ∈ l₂, e.isTaskInit = true)
    (i j : Nat) (hi : i < (l₁ ++ l₂).length) (hj : j < (l₁ ++ l₂).length)
    (hu : ((l₁ ++ l₂).get ⟨i, hi⟩).isUnionInit = true)
    (ht : ((l₁ ++ l₂).get ⟨j, hj⟩).isTaskInit = true) : i < j := by
  rw [List.get_eq_getElem] at hu ht
  have hlen : (l₁ ++ l₂).length = l₁.length + l₂.length := List.length_append l₁ l₂
  have hilt : i < l₁.length := by
    by_contra hge
    have hge' : l₁.length ≤ i := Nat.le_of_not_lt hge
    have hib : i - l₁.length < l₂.length := by omega
    have hg : (l₁ ++ l₂)[i] = l₂[i - l₁.length] :=
      List.getElem_append_right hge'
    rw [hg] at hu
    exact union_not_task _ hu (h2 _ (List.getElem_mem _))
  have hjge : l₁.length ≤ j := by
    by_contra hlt
    have hlt' : j < l₁.length := Nat.lt_of_not_le hlt
    have hg : (l₁ ++ l₂)[j] = l₁[j] := List.getElem_append_left hlt'
    rw [hg] at ht
    exact union_not_task _ (h1 _ (List.getElem_mem _)) ht
  omega

/-- After a successful post-validation run: every concrete `UnionDoc` model
was initialized in the loop, all loop events are union initializations, and
everything that ran in the gather phase is a `Document`/`View` invocation. -/
theorem runInit_barrier (env : ImportEnv) (db : Database)
    (refs : List ModelRef) (a r : Bool)
    (hok : (runInit env db refs a r).result = Except.ok ()) :
    (∀ m : Model, ModelRef.model m ∈ refs → m.kind = ModelType.UnionDoc →
        Invocation.unionInit m.name db ∈ (runInit env db refs a r).loopEvents) ∧
      (∀ e ∈ (runInit env db refs a r).loopEvents, e.isUnionInit = true) ∧
      (∀ e ∈ (runInit env db refs a r).tasksExecuted, e.isTaskInit = true) := by
  unfold runInit at hok ⊢
  rcases hl : runLoop env db a r refs ⟨[], []⟩ with ⟨st, oe⟩
  rw [hl] at hok
  cases oe with
  | some e => simp at hok
  | none =>
    have hcl := runLoop_classify env db a r refs ⟨[], []⟩
      (by intro e he; exact absurd he (by simp))
      (by intro t ht; exact absurd ht (by simp))
    rw [hl] at hcl
    refine ⟨?_, ?_, ?_⟩
    · intro m hm hk
      exact runLoop_mem_union env db a r refs ⟨[], []⟩ st hl m hm hk
    · exact hcl.1
    · intro e he
      rcases List.mem_map.mp he with ⟨t, htmem, hte⟩
      rw [← hte]
      exact hcl.2 t htmem

/-- C1: in every successful `init_beanie` call, each concrete `UnionDoc`
model in the list had its union-initialization routine executed in the
synchronous loop, and in the full execution trace every union
initialization strictly precedes every `Document`/`View` task execution
(the union initializations form a barrier before the gathered batch). -/
theorem init_beanie_union_barrier (env : ImportEnv)
    (cl : Option Client) (database : Option Database) (conn : Option String)
    (dm : Option (List ModelRef)) (a r : Bool)
    (hok : (init_beanie env cl database conn dm a r).result = Except.ok ()) :
    (∀ refs, dm = some refs → ∀ m : Model, ModelRef.model m ∈ refs →
        m.kind = ModelType.UnionDoc →
        ∃ d, Invocation.unionInit m.name d ∈
          (init_beanie env cl database conn dm a r).loopEvents) ∧
      ∀ i j (hi : i < (init_beanie env cl database conn dm a r).trace.length)
          (hj : j < (init_beanie env cl database conn dm a r).trace.length),
        ((init_beanie env cl database conn dm a r).trace.get ⟨i, hi⟩).isUnionInit = true →
        ((init_beanie env cl database conn dm a r).trace.get ⟨j, hj⟩).isTaskInit = true →
        i < j := by
  cases conn with
  | none =>
    cases database with
    | none => simp [init_beanie] at hok
    | some d =>
      cases dm with
      | none => simp [init_beanie] at hok
      | some refs =>
        have hb := runInit_barrier env d refs a r hok
        constructor
        · intro refs' hrefs m hm hk
          cases hrefs
          exact ⟨d, hb.1 m hm hk⟩
        · intro i j hi hj hu ht
          exact barrier_of_append
            (runInit env d refs a r).loopEvents
            (runInit env d refs a r).tasksExecuted
            hb.2.1 hb.2.2 i j hi hj hu ht
  | some cs =>
    cases database with
    | some d => simp [init_beanie] at hok
    | none =>
      cases dm with
      | none => simp [init_beanie] at hok
      | some refs =>
        cases cl with
        | some c =>
          have hb := runInit_barrier env
            (Database.derived c (sliceFrom1 (pathOfUrl cs))) refs a r hok
          constructor
          · intro refs' hrefs m hm hk
            cases hrefs
            exact ⟨_, hb.1 m hm hk⟩
          · intro i j hi hj hu ht
            exact barrier_of_append _ _ hb.2.1 hb.2.2 i j hi hj hu ht
        | none =>
          have hb := runInit_barrier env
            (Database.derived (Client.constructed cs) (sliceFrom1 (pathOfUrl cs))) refs a r hok
          constructor
          · intro refs' hrefs m hm hk
            cases hrefs
            exact ⟨_, hb.1 m hm hk⟩
          · intro i j hi hj hu ht
            exact barrier_of_append _ _ hb.2.1 hb.2.2 i j hi hj hu ht

theorem init_beanie_union_barrier_witness :
    ∃ d, Invocation.unionInit "U" d ∈
      (init_beanie emptyEnv none (some dbMain) none
        (some [ModelRef.model mU, ModelRef.model mD]) false false).loopEvents := by
  have h := init_beanie_union_barrier emptyEnv none (some dbMain) none
    (some [ModelRef.model mU, ModelRef.model mD]) false false (by decide)
  exact h.1 [ModelRef.model mU, ModelRef.model mD] rfl mU (by simp) rfl

end Beanie
